import Mathlib

/-!
Verification development for the RSS news-feed pipeline
(canonical variant: the richest implementation of the pipeline,
`processFeed` / `main` / ledger helpers / `isRelevant` / `truncate`).

JavaScript values are modelled as follows: strings are `String`,
epoch-millisecond timestamps are `Int` (JS numbers used as integral
timestamps; `NaN` from date parsing is modelled by the dedicated
`JsNum.nan` constructor), the posted-articles ledger (a JSON object
mapping article link to timestamp) is an association list, and JS
truthiness of optional strings / numbers is made explicit.
-/

set_option autoImplicit false

namespace NewsFeed

/-- The dedup ledger: JSON object mapping article link to the
epoch-millisecond timestamp at which the link was handled. -/
abbrev Ledger := List (String × Int)

/-- Reading `posted[link]` on the ledger object: the value at the key,
if present. -/
def lookup? : Ledger → String → Option Int
  | [], _ => none
  | e :: rest, k => if e.1 = k then some e.2 else lookup? rest k

/-- Writing `posted[link] = t`: overwrite the value when the key exists,
otherwise append the new key (JS object property-creation order). -/
def setKey : Ledger → String → Int → Ledger
  | [], k, v => [(k, v)]
  | e :: rest, k, v => if e.1 = k then (k, v) :: rest else e :: setKey rest k v

/-- JS truthiness of a number read from an object: `undefined` and `0`
are falsy, every other (integral) value is truthy. -/
def truthyNum : Option Int → Bool
  | none => false
  | some v => v != 0

/-- JS truthiness of a `string | undefined` value: `undefined` and the
empty string are falsy. -/
def truthyStr : Option String → Bool
  | none => false
  | some s => s != ""

/-- The JS expression `a || b` for `a : string | undefined` and a string
default `b`. -/
def jsOr (a : Option String) (b : String) : String :=
  match a with
  | none => b
  | some s => if s = "" then b else s

/-- Constant `HOURS_24 = 24 * 60 * 60 * 1000` (recency window, ms). -/
def HOURS24 : Int := 24 * 60 * 60 * 1000

/-- Constant `7 * 24 * 60 * 60 * 1000` (retention window, ms), the
cutoff span used by `cleanOldEntries`. -/
def SEVEN_DAYS : Int := 7 * 24 * 60 * 60 * 1000

/-- Source `cleanOldEntries(posted)`: keep exactly the entries whose
timestamp is strictly greater than `Date.now() - 7 days`; the call to
`Date.now()` is passed in as `now`. -/
def cleanOldEntries (now : Int) (posted : Ledger) : Ledger :=
  posted.filter (fun e => decide (e.2 > now - SEVEN_DAYS))

/-- End index of the JS slice `text.slice(0, maxLength - 3)`: a
negative end index is clamped against the string length. -/
def jsSliceEnd (len maxLength : Nat) : Nat :=
  if 3 ≤ maxLength then maxLength - 3 else len - (3 - maxLength)

/-- Source `truncate(text, maxLength)`: return `text` unchanged when it
fits, otherwise slice to `maxLength - 3` characters and append the
three-character ellipsis marker. -/
def truncate (text : String) (maxLength : Nat) : String :=
  if text.length ≤ maxLength then text
  else ((text.toList.take (jsSliceEnd text.length maxLength)).asString) ++ "..."

/-- JS `toLowerCase()` (ASCII case fold, as `Char.toLower`). -/
def jsToLower (s : String) : String := (s.toList.map Char.toLower).asString

/-- JS `trim()`: drop leading and trailing whitespace. -/
def jsTrim (s : String) : String :=
  (((s.toList.dropWhile Char.isWhitespace).reverse.dropWhile
      Char.isWhitespace).reverse).asString

/-- Fuel-indexed worker for the global regex replacement
`content.replace(/<[^>]*>/g, "")`: at each `<` that is followed by some
`>`, the regex consumes up to and including the first such `>`;
a `<` with no later `>` cannot start a match and is kept. The fuel is
the length of the list, which bounds the number of steps. -/
def stripTagsGo : Nat → List Char → List Char
  | 0, l => l
  | _ + 1, [] => []
  | fuel + 1, c :: rest =>
    if c = '<' && rest.contains '>' then
      stripTagsGo fuel ((rest.dropWhile (fun x => x != '>')).tail)
    else c :: stripTagsGo fuel rest

/-- The markup strip `content.replace(/<[^>]*>/g, "")`. -/
def stripTags (cs : List Char) : List Char := stripTagsGo cs.length cs

/-- One raw feed entry as exposed by the feed-parsing collaborator:
every field the pipeline reads is an optional string. -/
structure Item where
  link : Option String
  title : Option String
  pubDate : Option String
  contentSnippet : Option String
  content : Option String
  summary : Option String
deriving DecidableEq

/-- The canonical Article record built by extraction. The image-url
field is omitted: no claim concerns `getImageUrl`, and it does not
influence filtering, classification, marking or the ledger. -/
structure Article where
  title : String
  link : String
  source : String
  summary : String
deriving DecidableEq

/-- Source `getSummary(item)`: first truthy of
`contentSnippet || content || summary || ""`, strip markup, trim,
truncate to 200 characters. -/
def getSummary (item : Item) : String :=
  truncate (jsTrim ((stripTags (jsOr item.contentSnippet
    (jsOr item.content (jsOr item.summary ""))).toList).asString)) 200

/-- A JS number that is either an integral value or `NaN` (the result
of `new Date(bad).getTime()` on an unparseable date string). -/
inductive JsNum where
  | num (v : Int)
  | nan
deriving DecidableEq

/-- The JS comparison `pubDate < cutoffTime`: every comparison against
`NaN` is false. -/
def jsLt : JsNum → Int → Bool
  | .num v, c => decide (v < c)
  | .nan, _ => false

/-- The value of `item.pubDate ? new Date(item.pubDate).getTime() : 0`:
a missing or empty date string is falsy and yields `0`; a present
nonempty one is parsed by the external `Date` constructor (`parseDate`,
`none` meaning `NaN`). -/
def itemPubDate (parseDate : String → Option Int) (item : Item) : JsNum :=
  match item.pubDate with
  | none => .num 0
  | some s =>
    if s = "" then .num 0
    else match parseDate s with
      | none => .nan
      | some t => .num t

/-- The per-item body of the loop in `processFeed`: skip when the link
is missing/empty, when `posted[link]` is truthy, or when
`pubDate < cutoffTime`; otherwise build the Article. -/
def extractItem (parseDate : String → Option Int) (source : String)
    (posted : Ledger) (cutoffTime : Int) (item : Item) : Option Article :=
  match item.link with
  | none => none
  | some link =>
    if link = "" then none
    else if truthyNum (lookup? posted link) then none
    else if jsLt (itemPubDate parseDate item) cutoffTime then none
    else some { title := jsOr item.title "Untitled", link := link,
                source := source, summary := getSummary item }

/-- One feed together with the outcome of fetching it: `none` models a
fetch/parse failure (caught in `processFeed`, yielding no articles). -/
structure FeedData where
  name : String
  items : Option (List Item)

/-- Source `processFeed(feed, posted, cutoffTime)`: on fetch failure
return the empty batch; otherwise filter and extract every item. -/
def processFeed (parseDate : String → Option Int) (fd : FeedData)
    (posted : Ledger) (cutoffTime : Int) : List Article :=
  match fd.items with
  | none => []
  | some items => items.filterMap (extractItem parseDate fd.name posted cutoffTime)

/-- Outcome of the single classification HTTP call in `isRelevant`,
seen at the collaborator boundary: a transport exception from `fetch`,
a non-ok HTTP response, an ok response whose body is not JSON
(`response.json()` throws), an ok JSON body without a `content` array
(`data.content[0]` throws), or an ok body with a `content` array whose
blocks each carry an optional `text` field. -/
inductive OracleResponse where
  | transportError
  | httpNotOk (status : Nat)
  | okNotJson
  | okNoContent
  | okContent (blocks : List (Option String))
deriving DecidableEq

/-- True exactly when the call outcome lands in a `catch` branch or the
`!response.ok` branch of `isRelevant`, all of which return `true`. -/
def oracleFails : OracleResponse → Bool
  | .transportError => true
  | .httpNotOk _ => true
  | .okNotJson => true
  | .okNoContent => true
  | .okContent _ => false

/-- The JS expression `data.content[0]?.text`: `undefined` when the
array is empty or the first block has no text field. -/
def firstBlockText : List (Option String) → Option String
  | [] => none
  | b :: _ => b

/-- Source `isRelevant(article, category)`. The decision depends on the
configured credential and the oracle outcome only; the article and
category shape the request payload (an external effect) but never the
returned value, so they are elided here. Missing credential: permissive
`true`. Any failure of the call: `true`. Otherwise the answer is
lower-cased, trimmed, and compared to the literal `"yes"`. -/
def isRelevant (apiKey : Option String) (resp : OracleResponse) : Bool :=
  if truthyStr apiKey = false then true
  else match resp with
  | .transportError => true
  | .httpNotOk _ => true
  | .okNotJson => true
  | .okNoContent => true
  | .okContent blocks =>
    match firstBlockText blocks with
    | none => false
    | some s => jsTrim (jsToLower s) == "yes"

/-- The three feed categories. -/
inductive Category where
  | technology
  | corporate_finance
  | eam_build_up
deriving DecidableEq

/-- The iteration order of the category loop in `main`. -/
def categoriesList : List Category :=
  [.technology, .corporate_finance, .eam_build_up]

/-- Observable external effects of one run, in order: each `isRelevant`
decision, each webhook publish attempt and its outcome, each ledger
mutation `posted[link] = Date.now()`, and the final `savePosted`. -/
inductive Event where
  | classified (link : String) (relevant : Bool)
  | published (webhook : String) (link : String) (ok : Bool)
  | marked (link : String) (time : Int)
  | saved (ledger : Ledger)
deriving DecidableEq

/-- The external world consumed article-by-article: the oracle response,
the publish outcome and the `Date.now()` reading for the n-th article
processed in the run, plus the `Date` parser for pubDate strings. -/
structure World where
  apiKey : Option String
  oracle : Nat → OracleResponse
  publishOk : Nat → Bool
  time : Nat → Int
  parseDate : String → Option Int

/-- The article loop of `main` (one feed's batch): classify; if
irrelevant, mark handled; if relevant, publish and mark handled only on
success. Returns the updated ledger, the next article index, and the
emitted events. -/
def runArticles (w : World) (hook : String) :
    List Article → Nat → Ledger → Ledger × Nat × List Event
  | [], i, posted => (posted, i, [])
  | a :: rest, i, posted =>
    if isRelevant w.apiKey (w.oracle i) = false then
      let t := w.time i
      let r := runArticles w hook rest (i + 1) (setKey posted a.link t)
      (r.1, r.2.1, .classified a.link false :: .marked a.link t :: r.2.2)
    else if w.publishOk i then
      let t := w.time i
      let r := runArticles w hook rest (i + 1) (setKey posted a.link t)
      (r.1, r.2.1,
        .classified a.link true :: .published hook a.link true :: .marked a.link t :: r.2.2)
    else
      let r := runArticles w hook rest (i + 1) posted
      (r.1, r.2.1, .classified a.link true :: .published hook a.link false :: r.2.2)

/-- The feed loop of `main` for one category: extract each feed's batch
against the current ledger, then hand the batch to the article loop. -/
def runFeeds (w : World) (hook : String) (cutoffTime : Int) :
    List FeedData → Nat → Ledger → Ledger × Nat × List Event
  | [], i, posted => (posted, i, [])
  | fd :: rest, i, posted =>
    let arts := processFeed w.parseDate fd posted cutoffTime
    let rA := runArticles w hook arts i posted
    let rR := runFeeds w hook cutoffTime rest rA.2.1 rA.1
    (rR.1, rR.2.1, rA.2.2 ++ rR.2.2)

/-- The guard `if (!webhookUrl) continue` on
`WEBHOOK_MAP[category] : string | undefined`: an absent or empty
webhook deactivates the category. -/
def activeWebhook : Option String → Option String
  | none => none
  | some s => if s = "" then none else some s

/-- The category loop of `main`: skip categories without a truthy
webhook, process the others in order. -/
def runCategories (w : World) (webhooks : Category → Option String)
    (feedData : Category → List FeedData) (cutoffTime : Int) :
    List Category → Nat → Ledger → Ledger × Nat × List Event
  | [], i, posted => (posted, i, [])
  | c :: rest, i, posted =>
    match activeWebhook (webhooks c) with
    | none => runCategories w webhooks feedData cutoffTime rest i posted
    | some hook =>
      let rF := runFeeds w hook cutoffTime (feedData c) i posted
      let rR := runCategories w webhooks feedData cutoffTime rest rF.2.1 rF.1
      (rR.1, rR.2.1, rF.2.2 ++ rR.2.2)

/-- Everything one invocation of `main` reads from outside: environment
configuration, feed config together with each feed's fetch outcome, the
loaded ledger, the wall clock at run start, and whether the final
`writeFileSync` throws. -/
structure Env where
  world : World
  webhooks : Category → Option String
  feedData : Category → List FeedData
  loaded : Ledger
  now : Int
  saveFails : Bool

/-- The body of `main` up to (not including) `savePosted`: prune the
loaded ledger, compute the 24-hour cutoff, and walk all categories. -/
def runBody (env : Env) : Ledger × Nat × List Event :=
  runCategories env.world env.webhooks env.feedData (env.now - HOURS24)
    categoriesList 0 (cleanOldEntries env.now env.loaded)

/-- One full invocation of `main`: the run body followed by the single
`savePosted(posted)` call, whose failure (a `writeFileSync` throw) is
not caught inside `main` and escapes as the run's error. -/
def mainRun (env : Env) : List Event × Except Unit Ledger :=
  let r := runBody env
  (r.2.2 ++ [Event.saved r.1],
    if env.saveFails then Except.error () else Except.ok r.1)

/-- Left-biased choice used to describe ledger updates: the first
argument (the later information) wins when present. -/
def overrideWith (a b : Option Int) : Option Int :=
  match a with
  | some t => some t
  | none => b

/-- The time recorded by an event, when that event is a ledger marking
of the given link. -/
def markOf : Event → String → Option Int
  | .marked l' t, l => if l' = l then some t else none
  | _, _ => none

/-- Time of the last marking of a link within a trace, if any. -/
def lastMark : List Event → String → Option Int
  | [], _ => none
  | e :: rest, l => overrideWith (lastMark rest l) (markOf e l)

/-- A fresh feed entry used by the concrete scenarios below. -/
def itemFresh : Item :=
  { link := some "a", title := some "T", pubDate := some "d",
    contentSnippet := some "s", content := none, summary := none }

/-- A feed entry whose pubDate string is present but unparseable. -/
def itemBadDate : Item :=
  { link := some "a", title := some "T", pubDate := some "garbage",
    contentSnippet := some "s", content := none, summary := none }

/-- Scenario: the loaded ledger maps link `"a"` to timestamp `0`, the
wall clock reads `1000` (so the entry survives the 7-day prune), the
technology category is configured, and its single feed republishes the
same link; the oracle answers `"no"`. -/
def envZeroTs : Env :=
  { world := { apiKey := some "k", oracle := fun _ => .okContent [some "no"],
               publishOk := fun _ => false, time := fun _ => 1000,
               parseDate := fun _ => some 1000 },
    webhooks := fun c => match c with | .technology => some "w" | _ => none,
    feedData := fun c => match c with
      | .technology => [{ name := "f", items := some [itemFresh] }]
      | _ => [],
    loaded := [("a", 0)], now := 1000, saveFails := false }

/-- Scenario: empty loaded ledger, realistic wall clock, technology
configured, one feed whose single entry has the unparseable pubDate
`"garbage"` (the external `Date` parser yields `NaN` on every input);
the oracle answers `"no"`. -/
def envBadDate : Env :=
  { world := { apiKey := some "k", oracle := fun _ => .okContent [some "no"],
               publishOk := fun _ => false, time := fun _ => 7,
               parseDate := fun _ => none },
    webhooks := fun c => match c with | .technology => some "w" | _ => none,
    feedData := fun c => match c with
      | .technology => [{ name := "f", items := some [itemBadDate] }]
      | _ => [],
    loaded := [], now := 1000000000000, saveFails := false }

/-- Scenario: one feed lists the same fresh link twice; the oracle says
yes to both copies, the first publish succeeds and the second fails. -/
def envDupPublish : Env :=
  { world := { apiKey := some "k", oracle := fun _ => .okContent [some "yes"],
               publishOk := fun i => i == 0, time := fun _ => 5,
               parseDate := fun _ => some 1000000000000 },
    webhooks := fun c => match c with | .technology => some "w" | _ => none,
    feedData := fun c => match c with
      | .technology => [{ name := "f", items := some [itemFresh, itemFresh] }]
      | _ => [],
    loaded := [], now := 1000000000000, saveFails := false }

/-- A world in which the oracle always answers yes and every publish
succeeds, used to witness the duplicate-link theorem concretely. -/
def wAllOk : World :=
  { apiKey := some "k", oracle := fun _ => .okContent [some "yes"],
    publishOk := fun _ => true, time := fun _ => 9,
    parseDate := fun _ => some 50 }

/-- Scenario with no active categories and one surviving ledger entry,
used to witness run-level theorems on a concrete input. -/
def envQuiet : Env :=
  { world := { apiKey := none, oracle := fun _ => .transportError,
               publishOk := fun _ => false, time := fun _ => 0,
               parseDate := fun _ => none },
    webhooks := fun _ => none,
    feedData := fun _ => [],
    loaded := [("a", 5)], now := 0, saveFails := false }

/-- Scenario whose technology webhook is configured as the empty
string, used to witness the configuration-truthiness theorem. -/
def envEmptyHook : Env :=
  { world := { apiKey := some "", oracle := fun _ => .okContent [some "no"],
               publishOk := fun _ => false, time := fun _ => 0,
               parseDate := fun _ => none },
    webhooks := fun _ => some "",
    feedData := fun c => match c with
      | .technology => [{ name := "f", items := some [itemFresh] }]
      | _ => [],
    loaded := [], now := 0, saveFails := false }


theorem length_asString (l : List Char) : (l.asString).length = l.length := rfl

theorem length_toList (s : String) : s.toList.length = s.length := rfl

/-- C4 (amended): for `n ≥ 3` the result of `truncate s n` has length at
most `n`; it equals `s` whenever `s` already fits; and whenever
truncation occurred it ends in the three-character ellipsis marker.
The converse of the last part fails (see the counterexample): a string
that itself ends in the marker and fits the budget is returned
unchanged, so the result can end in the marker without truncation. -/
theorem truncate_spec (s : String) (n : Nat) (hn : 3 ≤ n) :
    (truncate s n).length ≤ n ∧
    (s.length ≤ n → truncate s n = s) ∧
    (n < s.length → ∃ t : String, truncate s n = t ++ "...") := by
  refine ⟨?_, fun h => by simp [truncate, h],
    fun h => ⟨(s.toList.take (jsSliceEnd s.length n)).asString,
      by simp [truncate, Nat.not_le.mpr h]⟩⟩
  by_cases h : s.length ≤ n
  · simp [truncate, h]
  · have hstop : jsSliceEnd s.length n = n - 3 := by simp [jsSliceEnd, hn]
    simp only [truncate, if_neg h]
    rw [String.length_append, hstop]
    have h1 : ((s.toList.take (n - 3)).asString).length = min (n - 3) s.length := by
      rw [length_asString, List.length_take, length_toList]
    rw [h1]
    have h2 : ("..." : String).length = 3 := rfl
    rw [h2]
    have h3 : min (n - 3) s.length ≤ n - 3 := Nat.min_le_left _ _
    omega

/-- Witness for the amended C4 theorem at a concrete input. -/
theorem truncate_spec_witness :
    (truncate "hello world" 5).length ≤ 5 ∧
    ("hello world".length ≤ 5 → truncate "hello world" 5 = "hello world") ∧
    (5 < "hello world".length → ∃ t : String, truncate "hello world" 5 = t ++ "...") :=
  truncate_spec "hello world" 5 (by decide)

/-- C4 counterexample: `truncate "..." 3` returns its input, which ends
in the ellipsis marker even though no truncation occurred, so the
claimed "ends in the marker iff truncation occurred" equivalence is
false at this input. -/
theorem truncate_marker_without_truncation :
    truncate "..." 3 = "" ++ "..." ∧ ¬ 3 < "...".length :=
  ⟨by decide, by decide⟩

/-- C6: `cleanOldEntries` keeps exactly the entries of its input whose
timestamp is strictly greater than `now` minus the 7-day retention
window, and it is idempotent. -/
theorem cleanOldEntries_spec :
    (∀ (now : Int) (posted : Ledger) (e : String × Int),
      e ∈ cleanOldEntries now posted ↔ e ∈ posted ∧ e.2 > now - SEVEN_DAYS) ∧
    (∀ (now : Int) (posted : Ledger),
      cleanOldEntries now (cleanOldEntries now posted) = cleanOldEntries now posted) := by
  constructor
  · intro now posted e
    simp [cleanOldEntries, List.mem_filter]
  · intro now posted
    simp [cleanOldEntries, List.filter_filter]

/-- Witness for the C6 theorem at a concrete input. -/
theorem cleanOldEntries_spec_witness :
    cleanOldEntries 0 (cleanOldEntries 0 [("a", 1)]) = cleanOldEntries 0 [("a", 1)] :=
  cleanOldEntries_spec.2 0 [("a", 1)]

/-- C5: `isRelevant` returns true exactly when no truthy credential is
configured, or the oracle call fails (transport error, non-ok status,
body that is not JSON, body without a content array), or the first
content block's text, lower-cased and trimmed, is the literal "yes";
in every other case (missing text, empty content, any other answer) it
returns false. -/
theorem isRelevant_spec (apiKey : Option String) (resp : OracleResponse) :
    isRelevant apiKey resp = true ↔
      (truthyStr apiKey = false ∨ oracleFails resp = true ∨
        ∃ blocks s, resp = .okContent blocks ∧ firstBlockText blocks = some s ∧
          jsTrim (jsToLower s) = "yes") := by
  cases hk : truthyStr apiKey with
  | false => simp [isRelevant, hk]
  | true =>
    cases resp with
    | transportError => simp [isRelevant, hk, oracleFails]
    | httpNotOk st => simp [isRelevant, hk, oracleFails]
    | okNotJson => simp [isRelevant, hk, oracleFails]
    | okNoContent => simp [isRelevant, hk, oracleFails]
    | okContent blocks =>
      cases hb : firstBlockText blocks with
      | none => simp [isRelevant, hk, oracleFails, hb]
      | some s => simp [isRelevant, hk, oracleFails, hb]

/-- Witness for the C5 theorem at a concrete input: a padded,
upper-case " YES " answer is accepted. -/
theorem isRelevant_spec_witness : isRelevant (some "k") (.okContent [some " YES "]) = true :=
  (isRelevant_spec (some "k") (.okContent [some " YES "])).mpr
    (Or.inr (Or.inr ⟨[some " YES "], " YES ", rfl, rfl, by decide⟩))


theorem lookup?_setKey (p : Ledger) (k : String) (v : Int) (k' : String) :
    lookup? (setKey p k v) k' = if k' = k then some v else lookup? p k' := by
  induction p with
  | nil => by_cases h : k' = k <;> simp_all [setKey, lookup?, eq_comm]
  | cons e rest ih =>
    by_cases he : e.1 = k <;> by_cases h : k' = k <;>
      simp_all [setKey, lookup?, eq_comm]

theorem overrideWith_none (a : Option Int) : overrideWith a none = a := by
  cases a <;> rfl

theorem overrideWith_assoc (a b c : Option Int) :
    overrideWith (overrideWith a b) c = overrideWith a (overrideWith b c) := by
  cases a <;> rfl

theorem overrideWith_isSome (a b : Option Int) :
    (overrideWith a b).isSome = (a.isSome || b.isSome) := by
  cases a <;> cases b <;> rfl

theorem lastMark_append (xs ys : List Event) (l : String) :
    lastMark (xs ++ ys) l = overrideWith (lastMark ys l) (lastMark xs l) := by
  induction xs with
  | nil => simp [lastMark, overrideWith_none]
  | cons e xs ih =>
    rw [List.cons_append]
    show overrideWith (lastMark (xs ++ ys) l) (markOf e l) =
      overrideWith (lastMark ys l) (overrideWith (lastMark xs l) (markOf e l))
    rw [ih, overrideWith_assoc]

theorem runArticles_lookup (w : World) (hook : String) :
    ∀ (arts : List Article) (i : Nat) (posted : Ledger) (l : String),
      lookup? (runArticles w hook arts i posted).1 l =
        overrideWith (lastMark (runArticles w hook arts i posted).2.2 l)
          (lookup? posted l) := by
  intro arts
  induction arts with
  | nil => intro i posted l; simp [runArticles, lastMark, overrideWith]
  | cons a rest ih =>
    intro i posted l
    by_cases hrel : isRelevant w.apiKey (w.oracle i) = false
    · simp only [runArticles, if_pos hrel]
      rw [ih, lookup?_setKey]
      simp only [lastMark, markOf, overrideWith_none, overrideWith_assoc]
      by_cases hal : a.link = l
      · subst hal
        cases lastMark (runArticles w hook rest (i + 1)
          (setKey posted a.link (w.time i))).2.2 a.link <;>
          simp [overrideWith]
      · cases lastMark (runArticles w hook rest (i + 1)
          (setKey posted a.link (w.time i))).2.2 l <;>
          simp [overrideWith, hal, Ne.symm hal]
    · by_cases hok : w.publishOk i
      · simp only [runArticles, if_neg hrel, if_pos hok]
        rw [ih, lookup?_setKey]
        simp only [lastMark, markOf, overrideWith_none, overrideWith_assoc]
        by_cases hal : a.link = l
        · subst hal
          cases lastMark (runArticles w hook rest (i + 1)
            (setKey posted a.link (w.time i))).2.2 a.link <;>
            simp [overrideWith]
        · cases lastMark (runArticles w hook rest (i + 1)
            (setKey posted a.link (w.time i))).2.2 l <;>
            simp [overrideWith, hal, Ne.symm hal]
      · simp only [runArticles, if_neg hrel, if_neg hok]
        rw [ih]
        simp only [lastMark, markOf, overrideWith_none, overrideWith_assoc]

theorem runFeeds_lookup (w : World) (hook : String) (cutoff : Int) :
    ∀ (fds : List FeedData) (i : Nat) (posted : Ledger) (l : String),
      lookup? (runFeeds w hook cutoff fds i posted).1 l =
        overrideWith (lastMark (runFeeds w hook cutoff fds i posted).2.2 l)
          (lookup? posted l) := by
  intro fds
  induction fds with
  | nil => intro i posted l; simp [runFeeds, lastMark, overrideWith]
  | cons fd rest ih =>
    intro i posted l
    simp only [runFeeds]
    rw [ih, runArticles_lookup, lastMark_append, overrideWith_assoc]

theorem runCategories_lookup (w : World) (webhooks : Category → Option String)
    (feedData : Category → List FeedData) (cutoff : Int) :
    ∀ (cats : List Category) (i : Nat) (posted : Ledger) (l : String),
      lookup? (runCategories w webhooks feedData cutoff cats i posted).1 l =
        overrideWith
          (lastMark (runCategories w webhooks feedData cutoff cats i posted).2.2 l)
          (lookup? posted l) := by
  intro cats
  induction cats with
  | nil => intro i posted l; simp [runCategories, lastMark, overrideWith]
  | cons c rest ih =>
    intro i posted l
    simp only [runCategories]
    cases activeWebhook (webhooks c) with
    | none => rw [ih]
    | some hook =>
      simp only []
      rw [ih, runFeeds_lookup, lastMark_append, overrideWith_assoc]

theorem runBody_lookup (env : Env) (l : String) :
    lookup? (runBody env).1 l =
      overrideWith (lastMark (runBody env).2.2 l)
        (lookup? (cleanOldEntries env.now env.loaded) l) :=
  runCategories_lookup env.world env.webhooks env.feedData (env.now - HOURS24)
    categoriesList 0 (cleanOldEntries env.now env.loaded) l

theorem runArticles_no_saved (w : World) (hook : String) :
    ∀ (arts : List Article) (i : Nat) (posted : Ledger) (L : Ledger),
      Event.saved L ∉ (runArticles w hook arts i posted).2.2 := by
  intro arts
  induction arts with
  | nil => intro i posted L; simp [runArticles]
  | cons a rest ih =>
    intro i posted L
    by_cases hrel : isRelevant w.apiKey (w.oracle i) = false
    · simp [runArticles, if_pos hrel, ih]
    · by_cases hok : w.publishOk i
      · simp [runArticles, if_neg hrel, if_pos hok, ih]
      · simp [runArticles, if_neg hrel, if_neg hok, ih]

theorem runFeeds_no_saved (w : World) (hook : String) (cutoff : Int) :
    ∀ (fds : List FeedData) (i : Nat) (posted : Ledger) (L : Ledger),
      Event.saved L ∉ (runFeeds w hook cutoff fds i posted).2.2 := by
  intro fds
  induction fds with
  | nil => intro i posted L; simp [runFeeds]
  | cons fd rest ih =>
    intro i posted L
    simp [runFeeds, runArticles_no_saved, ih]

theorem runCategories_no_saved (w : World) (webhooks : Category → Option String)
    (feedData : Category → List FeedData) (cutoff : Int) :
    ∀ (cats : List Category) (i : Nat) (posted : Ledger) (L : Ledger),
      Event.saved L ∉ (runCategories w webhooks feedData cutoff cats i posted).2.2 := by
  intro cats
  induction cats with
  | nil => intro i posted L; simp [runCategories]
  | cons c rest ih =>
    intro i posted L
    simp only [runCategories]
    cases activeWebhook (webhooks c) with
    | none => exact ih _ _ _
    | some hook =>
      simp [runFeeds_no_saved, ih]

theorem markOf_isSome (e : Event) (l : String) :
    (markOf e l).isSome = true ↔ ∃ t, e = Event.marked l t := by
  cases e with
  | marked l' t => by_cases h : l' = l <;> simp [markOf, h]
  | classified a b => simp [markOf]
  | published a b c => simp [markOf]
  | saved L => simp [markOf]

theorem lastMark_isSome_iff (tr : List Event) (l : String) :
    (lastMark tr l).isSome = true ↔ ∃ t, Event.marked l t ∈ tr := by
  induction tr with
  | nil => simp [lastMark]
  | cons e rest ih =>
    rw [lastMark, overrideWith_isSome]
    simp only [Bool.or_eq_true, ih, markOf_isSome, List.mem_cons]
    constructor
    · rintro (⟨t, ht⟩ | ⟨t, ht⟩)
      · exact ⟨t, Or.inr ht⟩
      · exact ⟨t, Or.inl ht.symm⟩
    · rintro ⟨t, ht | ht⟩
      · exact Or.inr ⟨t, ht.symm⟩
      · exact Or.inl ⟨t, ht⟩

theorem runArticles_marked_iff (w : World) (hook : String) :
    ∀ (arts : List Article) (i : Nat) (posted : Ledger) (l : String),
      ((∃ t, Event.marked l t ∈ (runArticles w hook arts i posted).2.2) ↔
        (Event.classified l false ∈ (runArticles w hook arts i posted).2.2 ∨
          ∃ h, Event.published h l true ∈ (runArticles w hook arts i posted).2.2)) := by
  intro arts
  induction arts with
  | nil => intro i posted l; simp [runArticles]
  | cons a rest ih =>
    intro i posted l
    by_cases hrel : isRelevant w.apiKey (w.oracle i) = false
    · simp only [runArticles, if_pos hrel]
      by_cases hal : a.link = l
      · subst hal
        constructor
        · intro _
          exact Or.inl (by simp)
        · intro _
          exact ⟨w.time i, by simp⟩
      · simp [List.mem_cons, hal, Ne.symm hal, ih]
    · by_cases hok : w.publishOk i
      · simp only [runArticles, if_neg hrel, if_pos hok]
        by_cases hal : a.link = l
        · subst hal
          constructor
          · intro _
            exact Or.inr ⟨hook, by simp⟩
          · intro _
            exact ⟨w.time i, by simp⟩
        · simp [List.mem_cons, hal, Ne.symm hal, ih]
      · simp only [runArticles, if_neg hrel, if_neg hok]
        simp [List.mem_cons, ih]

theorem runFeeds_marked_iff (w : World) (hook : String) (cutoff : Int) :
    ∀ (fds : List FeedData) (i : Nat) (posted : Ledger) (l : String),
      ((∃ t, Event.marked l t ∈ (runFeeds w hook cutoff fds i posted).2.2) ↔
        (Event.classified l false ∈ (runFeeds w hook cutoff fds i posted).2.2 ∨
          ∃ h, Event.published h l true ∈ (runFeeds w hook cutoff fds i posted).2.2)) := by
  intro fds
  induction fds with
  | nil => intro i posted l; simp [runFeeds]
  | cons fd rest ih =>
    intro i posted l
    simp only [runFeeds, List.mem_append]
    have hA := runArticles_marked_iff w hook
      (processFeed w.parseDate fd posted cutoff) i posted l
    have hR := ih (runArticles w hook
      (processFeed w.parseDate fd posted cutoff) i posted).2.1
      (runArticles w hook (processFeed w.parseDate fd posted cutoff) i posted).1 l
    constructor
    · rintro ⟨t, ht | ht⟩
      · rcases hA.mp ⟨t, ht⟩ with hc | ⟨h, hp⟩
        · exact Or.inl (Or.inl hc)
        · exact Or.inr ⟨h, Or.inl hp⟩
      · rcases hR.mp ⟨t, ht⟩ with hc | ⟨h, hp⟩
        · exact Or.inl (Or.inr hc)
        · exact Or.inr ⟨h, Or.inr hp⟩
    · rintro ((hc | hc) | ⟨h, hp | hp⟩)
      · rcases hA.mpr (Or.inl hc) with ⟨t, ht⟩
        exact ⟨t, Or.inl ht⟩
      · rcases hR.mpr (Or.inl hc) with ⟨t, ht⟩
        exact ⟨t, Or.inr ht⟩
      · rcases hA.mpr (Or.inr ⟨h, hp⟩) with ⟨t, ht⟩
        exact ⟨t, Or.inl ht⟩
      · rcases hR.mpr (Or.inr ⟨h, hp⟩) with ⟨t, ht⟩
        exact ⟨t, Or.inr ht⟩

theorem runCategories_marked_iff (w : World) (webhooks : Category → Option String)
    (feedData : Category → List FeedData) (cutoff : Int) :
    ∀ (cats : List Category) (i : Nat) (posted : Ledger) (l : String),
      ((∃ t, Event.marked l t ∈
          (runCategories w webhooks feedData cutoff cats i posted).2.2) ↔
        (Event.classified l false ∈
            (runCategories w webhooks feedData cutoff cats i posted).2.2 ∨
          ∃ h, Event.published h l true ∈
            (runCategories w webhooks feedData cutoff cats i posted).2.2)) := by
  intro cats
  induction cats with
  | nil => intro i posted l; simp [runCategories]
  | cons c rest ih =>
    intro i posted l
    simp only [runCategories]
    cases activeWebhook (webhooks c) with
    | none => exact ih _ _ _
    | some hook =>
      simp only [List.mem_append]
      have hF := runFeeds_marked_iff w hook cutoff (feedData c) i posted l
      have hR := ih (runFeeds w hook cutoff (feedData c) i posted).2.1
        (runFeeds w hook cutoff (feedData c) i posted).1 l
      constructor
      · rintro ⟨t, ht | ht⟩
        · rcases hF.mp ⟨t, ht⟩ with hc | ⟨h, hp⟩
          · exact Or.inl (Or.inl hc)
          · exact Or.inr ⟨h, Or.inl hp⟩
        · rcases hR.mp ⟨t, ht⟩ with hc | ⟨h, hp⟩
          · exact Or.inl (Or.inr hc)
          · exact Or.inr ⟨h, Or.inr hp⟩
      · rintro ((hc | hc) | ⟨h, hp | hp⟩)
        · rcases hF.mpr (Or.inl hc) with ⟨t, ht⟩
          exact ⟨t, Or.inl ht⟩
        · rcases hR.mpr (Or.inl hc) with ⟨t, ht⟩
          exact ⟨t, Or.inr ht⟩
        · rcases hF.mpr (Or.inr ⟨h, hp⟩) with ⟨t, ht⟩
          exact ⟨t, Or.inl ht⟩
        · rcases hR.mpr (Or.inr ⟨h, hp⟩) with ⟨t, ht⟩
          exact ⟨t, Or.inr ht⟩

theorem runBody_marked_iff (env : Env) (l : String) :
    ((∃ t, Event.marked l t ∈ (runBody env).2.2) ↔
      (Event.classified l false ∈ (runBody env).2.2 ∨
        ∃ h, Event.published h l true ∈ (runBody env).2.2)) :=
  runCategories_marked_iff env.world env.webhooks env.feedData (env.now - HOURS24)
    categoriesList 0 (cleanOldEntries env.now env.loaded) l

theorem runCategories_congr (w : World) (wh1 wh2 : Category → Option String)
    (feedData : Category → List FeedData) (cutoff : Int) :
    ∀ (cats : List Category) (i : Nat) (posted : Ledger),
      (∀ c ∈ cats, activeWebhook (wh1 c) = activeWebhook (wh2 c)) →
      runCategories w wh1 feedData cutoff cats i posted =
        runCategories w wh2 feedData cutoff cats i posted := by
  intro cats
  induction cats with
  | nil => intro i posted _; rfl
  | cons c rest ih =>
    intro i posted h
    have hc : activeWebhook (wh1 c) = activeWebhook (wh2 c) := h c (by simp)
    have hrest : ∀ c' ∈ rest, activeWebhook (wh1 c') = activeWebhook (wh2 c') :=
      fun c' hc' => h c' (List.mem_cons_of_mem _ hc')
    simp only [runCategories, hc]
    cases hx : activeWebhook (wh2 c) with
    | none =>
      simp only [hx]
      exact ih _ _ hrest
    | some hook =>
      simp only [hx]
      rw [ih _ _ hrest]

/-- C7: `savePosted` serializes the full in-memory mapping and is
invoked exactly once per run, as the final step after all categories:
the run's trace is the body trace, which contains no save events,
followed by the single save of the full ledger; and a save failure is
the run's outcome, propagated out of `main` rather than swallowed. -/
theorem save_once_final (env : Env) :
    (mainRun env).1 = (runBody env).2.2 ++ [Event.saved (runBody env).1] ∧
    (∀ L : Ledger, Event.saved L ∉ (runBody env).2.2) ∧
    (mainRun env).2 =
      (if env.saveFails then Except.error () else Except.ok ((runBody env).1)) := by
  refine ⟨rfl, ?_, rfl⟩
  intro L
  exact runCategories_no_saved env.world env.webhooks env.feedData (env.now - HOURS24)
    categoriesList 0 (cleanOldEntries env.now env.loaded) L

/-- Witness for the C7 theorem at a concrete environment. -/
theorem save_once_final_witness :
    (mainRun envQuiet).1 = (runBody envQuiet).2.2 ++ [Event.saved (runBody envQuiet).1] ∧
    Event.saved [("a", 5)] ∉ (runBody envQuiet).2.2 ∧
    (mainRun envQuiet).2 =
      (if envQuiet.saveFails then Except.error () else Except.ok ((runBody envQuiet).1)) :=
  ⟨(save_once_final envQuiet).1, (save_once_final envQuiet).2.1 [("a", 5)],
    (save_once_final envQuiet).2.2⟩

/-- C9: during a run the in-memory ledger only gains keys: a link's
value in the run-end ledger is its last marking time when one exists
and otherwise its value in the pruned loaded ledger, so every key of
the pruned loaded ledger is still present in the ledger handed to
`savePosted`, which the trace records as saved. -/
theorem pruned_keys_persist (env : Env) (l : String)
    (h : (lookup? (cleanOldEntries env.now env.loaded) l).isSome = true) :
    (lookup? (runBody env).1 l).isSome = true ∧
    Event.saved (runBody env).1 ∈ (mainRun env).1 := by
  constructor
  · rw [runBody_lookup, overrideWith_isSome, h]
    simp
  · simp [mainRun]

/-- Witness for the C9 theorem at a concrete environment. -/
theorem pruned_keys_persist_witness :
    (lookup? (runBody envQuiet).1 "a").isSome = true ∧
    Event.saved (runBody envQuiet).1 ∈ (mainRun envQuiet).1 :=
  pruned_keys_persist envQuiet "a" (by decide)

/-- C3 (amended): when the save succeeds the run returns the in-memory
ledger, in which a link maps to the time of its last marking in the
run when one exists, and otherwise to its value in the pruned loaded
ledger; a marking of a link exists exactly when the run classified
that link irrelevant or published it successfully. Hence a publish
success or an irrelevant classification leaves the link present, and a
link none of whose handlings were marked is saved only if it was
already in the pruned loaded ledger. The claim as stated — a failed
publish leaves the link absent — fails when another handling of the
same link in the same run is marked (see the counterexample). -/
theorem ledger_after_run (env : Env) (l : String) (hs : env.saveFails = false) :
    (mainRun env).2 = Except.ok ((runBody env).1) ∧
    lookup? ((runBody env).1) l =
      overrideWith (lastMark ((runBody env).2.2) l)
        (lookup? (cleanOldEntries env.now env.loaded) l) ∧
    ((lastMark ((runBody env).2.2) l).isSome = true ↔
      (Event.classified l false ∈ (runBody env).2.2 ∨
        ∃ h, Event.published h l true ∈ (runBody env).2.2)) := by
  refine ⟨?_, runBody_lookup env l, ?_⟩
  · simp [mainRun, hs]
  · rw [lastMark_isSome_iff]
    exact runBody_marked_iff env l

/-- Witness for the amended C3 theorem at a concrete environment. -/
theorem ledger_after_run_witness :
    (mainRun envQuiet).2 = Except.ok ((runBody envQuiet).1) ∧
    lookup? ((runBody envQuiet).1) "a" =
      overrideWith (lastMark ((runBody envQuiet).2.2) "a")
        (lookup? (cleanOldEntries envQuiet.now envQuiet.loaded) "a") ∧
    ((lastMark ((runBody envQuiet).2.2) "a").isSome = true ↔
      (Event.classified "a" false ∈ (runBody envQuiet).2.2 ∨
        ∃ h, Event.published h "a" true ∈ (runBody envQuiet).2.2)) :=
  ledger_after_run envQuiet "a" rfl

/-- C3 counterexample: in `envDupPublish` one feed lists the same link
twice; the first copy is published successfully and the second publish
fails, yet the ledger saved at run end still contains the link — so
"if the publish call fails, the article's link is absent from the
ledger saved at run end" is false for the second article. -/
theorem publish_failure_link_still_saved :
    Event.published "w" "a" false ∈ (mainRun envDupPublish).1 ∧
    (mainRun envDupPublish).2 = Except.ok [("a", 5)] :=
  ⟨by decide, rfl⟩

/-- C1 (amended): a link mapped to a NONZERO timestamp in the in-memory
ledger consulted during extraction is skipped by `processFeed`: no
article with that link reaches the batch. The handled-check
`if (posted[link])` is a truthiness check, not a presence check, so a
zero timestamp does not suppress the link (see the counterexample). -/
theorem nonzero_handled_skipped (parseDate : String → Option Int) (fd : FeedData)
    (posted : Ledger) (cutoffTime : Int) (l : String) (v : Int)
    (hv : lookup? posted l = some v) (hnz : v ≠ 0) :
    ∀ a ∈ processFeed parseDate fd posted cutoffTime, a.link ≠ l := by
  intro a ha
  cases hfd : fd.items with
  | none => simp [processFeed, hfd] at ha
  | some items =>
    simp only [processFeed, hfd] at ha
    obtain ⟨item, hitem, hext⟩ := List.mem_filterMap.mp ha
    intro hal
    cases hlink : item.link with
    | none => simp [extractItem, hlink] at hext
    | some lk =>
      by_cases hlk : lk = ""
      · simp [extractItem, hlink, hlk] at hext
      · by_cases ht : truthyNum (lookup? posted lk) = true
        · simp [extractItem, hlink, hlk, ht] at hext
        · have halk : a.link = lk := by
            by_cases hd : jsLt (itemPubDate parseDate item) cutoffTime = true
            · simp [extractItem, hlink, hlk, ht, hd] at hext
            · simp [extractItem, hlink, hlk, ht, hd] at hext
              rw [← hext]
          have hlkl : lk = l := halk.symm.trans hal
          rw [hlkl, hv] at ht
          simp [truthyNum, hnz] at ht

/-- Witness for the amended C1 theorem: with link "b" handled at a
nonzero timestamp, the extracted article for link "a" indeed does not
carry link "b". -/
theorem nonzero_handled_skipped_witness :
    (Article.mk "T" "a" "f" "s").link ≠ "b" :=
  nonzero_handled_skipped (fun _ => some 50)
    { name := "f", items := some [itemFresh] } [("b", 7)] 0 "b" 7 rfl
    (by decide) (Article.mk "T" "a" "f" "s") (by decide)

/-- C1 counterexample: in `envZeroTs` the loaded ledger contains link
"a" with timestamp 0 — present as a key of the mapping — yet the run
classifies an extracted entry with that link, because `if (posted[link])`
treats the 0 value as falsy; this contradicts "never classified and
never published in that run". -/
theorem zero_timestamp_link_reconsidered :
    lookup? envZeroTs.loaded "a" = some 0 ∧
    Event.classified "a" false ∈ (mainRun envZeroTs).1 :=
  ⟨rfl, by decide⟩

/-- C2 (amended): an entry whose publish timestamp is missing (absent
or empty string) is treated as epoch 0 and is excluded by the recency
filter whenever the cutoff is positive, that is, whenever the wall
clock reads more than 24 hours past the epoch; but an entry whose
timestamp string is present and unparseable yields `NaN`, every
comparison against which is false, so such an entry always passes the
recency filter and is extracted — the claim's "treated as epoch 0 and
always excluded" fails for it (see the counterexample). -/
theorem missing_vs_unparseable_date (parseDate : String → Option Int)
    (source : String) (posted : Ledger) (cutoffTime : Int) (item : Item) (l : String)
    (hlink : item.link = some l) (hl : l ≠ "")
    (hp : truthyNum (lookup? posted l) = false) :
    ((item.pubDate = none ∨ item.pubDate = some "") → 0 < cutoffTime →
      extractItem parseDate source posted cutoffTime item = none) ∧
    (∀ s, item.pubDate = some s → s ≠ "" → parseDate s = none →
      extractItem parseDate source posted cutoffTime item =
        some { title := jsOr item.title "Untitled", link := l,
               source := source, summary := getSummary item }) := by
  constructor
  · intro hd hc
    have hnum : itemPubDate parseDate item = .num 0 := by
      rcases hd with hd | hd <;> simp [itemPubDate, hd]
    simp [extractItem, hlink, hl, hp, hnum, jsLt, hc]
  · intro s hd hs hparse
    have hnum : itemPubDate parseDate item = .nan := by
      simp [itemPubDate, hd, hs, hparse]
    simp [extractItem, hlink, hl, hp, hnum, jsLt]

/-- Witness for the amended C2 theorem: the concrete entry with
unparseable date "garbage" passes the filter and is extracted. -/
theorem missing_vs_unparseable_date_witness :
    extractItem (fun _ => none) "f" [] 5 itemBadDate =
      some { title := jsOr itemBadDate.title "Untitled", link := "a",
             source := "f", summary := getSummary itemBadDate } :=
  (missing_vs_unparseable_date (fun _ => none) "f" [] 5 itemBadDate "a" rfl
    (by decide) rfl).2 "garbage" rfl (by decide) rfl

/-- C2 counterexample: in `envBadDate` the single entry's pubDate is
present but unparseable (the `Date` collaborator yields `NaN`), the
wall clock is realistic, and yet the run classifies the entry —
contradicting "always excluded by the 24-hour recency window,
never classified". -/
theorem unparseable_date_not_excluded :
    itemBadDate.pubDate = some "garbage" ∧
    envBadDate.world.parseDate "garbage" = none ∧
    Event.classified "a" false ∈ (mainRun envBadDate).1 :=
  ⟨rfl, rfl, by decide⟩

/-- C8: when one feed's entry list contains two entries with the same
link, the link not already truthy in the ledger and both entries inside
the recency window, both are placed in the extracted batch (the
already-seen check runs against the ledger as it stood at extraction,
before any marking), and when the classifier approves both and both
publishes succeed, the article loop classifies and publishes the link
twice — at-most-once delivery does not hold within one batch. -/
theorem duplicate_links_processed (w : World) (hook : String)
    (name : String) (posted : Ledger) (cutoffTime : Int)
    (i1 i2 : Item) (l : String) (i : Nat)
    (h1 : i1.link = some l) (h2 : i2.link = some l) (hl : l ≠ "")
    (hp : truthyNum (lookup? posted l) = false)
    (hd1 : jsLt (itemPubDate w.parseDate i1) cutoffTime = false)
    (hd2 : jsLt (itemPubDate w.parseDate i2) cutoffTime = false)
    (hr1 : isRelevant w.apiKey (w.oracle i) = true)
    (hr2 : isRelevant w.apiKey (w.oracle (i + 1)) = true)
    (ho1 : w.publishOk i = true) (ho2 : w.publishOk (i + 1) = true) :
    ∃ a1 a2 : Article,
      processFeed w.parseDate { name := name, items := some [i1, i2] }
          posted cutoffTime = [a1, a2] ∧
      a1.link = l ∧ a2.link = l ∧
      (runArticles w hook [a1, a2] i posted).2.2 =
        [.classified l true, .published hook l true, .marked l (w.time i),
         .classified l true, .published hook l true, .marked l (w.time (i + 1))] := by
  refine ⟨{ title := jsOr i1.title "Untitled", link := l, source := name,
            summary := getSummary i1 },
          { title := jsOr i2.title "Untitled", link := l, source := name,
            summary := getSummary i2 }, ?_, rfl, rfl, ?_⟩
  · simp [processFeed, extractItem, h1, h2, hl, hp, hd1, hd2]
  · simp [runArticles, hr1, hr2, ho1, ho2]

/-- Witness for the C8 theorem at a concrete input: the same fresh link
twice in one feed, an always-yes oracle, always-successful publishes. -/
theorem duplicate_links_processed_witness :
    ∃ a1 a2 : Article,
      processFeed wAllOk.parseDate { name := "f", items := some [itemFresh, itemFresh] }
          [] 0 = [a1, a2] ∧
      a1.link = "a" ∧ a2.link = "a" ∧
      (runArticles wAllOk "w" [a1, a2] 0 []).2.2 =
        [.classified "a" true, .published "w" "a" true, .marked "a" (wAllOk.time 0),
         .classified "a" true, .published "w" "a" true, .marked "a" (wAllOk.time (0 + 1))] :=
  duplicate_links_processed wAllOk "w" "f" [] 0 itemFresh itemFresh "a" 0 rfl rfl
    (by decide) (by decide) (by decide) (by decide) (by decide) (by decide)
    (by decide) (by decide)

/-- C10: configuration presence is decided by truthiness: an empty
classification credential behaves exactly like an absent one (every
article is classified relevant), and an empty category webhook makes
the whole run behave exactly as if that category had no webhook. -/
theorem config_truthiness :
    (∀ resp : OracleResponse,
      isRelevant (some "") resp = true ∧ isRelevant none resp = true) ∧
    (∀ (env : Env) (cat : Category), env.webhooks cat = some "" →
      mainRun env =
        mainRun { env with
          webhooks := fun c => if c = cat then none else env.webhooks c }) := by
  constructor
  · intro resp
    exact ⟨by simp [isRelevant, truthyStr], by simp [isRelevant, truthyStr]⟩
  · intro env cat hcat
    have hb : runBody env = runBody { env with
        webhooks := fun c => if c = cat then none else env.webhooks c } := by
      unfold runBody
      refine runCategories_congr env.world env.webhooks
        (fun c => if c = cat then none else env.webhooks c) env.feedData
        (env.now - HOURS24) categoriesList 0 (cleanOldEntries env.now env.loaded) ?_
      intro c _
      by_cases hc : c = cat
      · subst hc
        rw [hcat]
        simp [activeWebhook]
      · simp [hc]
    simp only [mainRun, hb]

/-- Witness for the C10 theorem at a concrete environment whose
technology webhook is the empty string. -/
theorem config_truthiness_witness :
    mainRun envEmptyHook =
      mainRun { envEmptyHook with
        webhooks := fun c =>
          if c = Category.technology then none else envEmptyHook.webhooks c } :=
  config_truthiness.2 envEmptyHook Category.technology rfl

end NewsFeed
